import Mathlib

set_option linter.unusedVariables false

/-!
Verification development for the event-log ingestion and query engine
(`view-events.py`, `summarize-events.py`): the JSON value model, a model of
`json.loads`, the line-oriented record recoverer `read_events_file`, the
filter engine, the `--last` window, the stats aggregator, the detailed
renderer `format_event`, and the condensed summary phrase builder.
-/

/-- JSON values as produced by `json.loads`.  Numbers are modelled as
integers (the stdlib boundary: event records carry only integral numbers;
float literals are treated as unparseable by this model). -/
inductive Json where
  | null : Json
  | bool : Bool → Json
  | num : Int → Json
  | str : String → Json
  | arr : List Json → Json
  | obj : List (String × Json) → Json

/-- Python dict insertion: an existing key keeps its position and gets the
new value, a new key is appended at the end. -/
def objInsert : List (String × Json) → String → Json → List (String × Json)
  | [], k, v => [(k, v)]
  | (k0, v0) :: rest, k, v =>
    if k0 = k then (k0, v) :: rest else (k0, v0) :: objInsert rest k v

/-- Association lookup in a parsed object (first match). -/
def lookupKV : List (String × Json) → String → Option Json
  | [], _ => none
  | (k0, v0) :: rest, k => if k0 = k then some v0 else lookupKV rest k

/-- JSON insignificant whitespace (the set accepted by `json.loads`). -/
def isJsonWs (c : Char) : Bool :=
  c = ' ' || c = '\t' || c = '\n' || c = '\r'

/-- Skip leading JSON whitespace. -/
def skipWs : List Char → List Char
  | [] => []
  | c :: cs => if isJsonWs c then skipWs cs else c :: cs

/-- Value of one hexadecimal digit. -/
def hexVal (c : Char) : Option Nat :=
  if '0' ≤ c ∧ c ≤ '9' then some (c.toNat - 48)
  else if 'a' ≤ c ∧ c ≤ 'f' then some (c.toNat - 87)
  else if 'A' ≤ c ∧ c ≤ 'F' then some (c.toNat - 55)
  else none

/-- Decode one simple escape character of a JSON string literal. -/
def escChar (e : Char) : Option Char :=
  if e = '"' then some '"'
  else if e = '\\' then some '\\'
  else if e = '/' then some '/'
  else if e = 'b' then some '\x08'
  else if e = 'f' then some '\x0c'
  else if e = 'n' then some '\n'
  else if e = 'r' then some '\r'
  else if e = 't' then some '\t'
  else none

/-- Body of a JSON string literal (the opening quote already consumed):
returns the decoded string and the remaining input. -/
def parseStrAux : List Char → List Char → Option (String × List Char)
  | _, [] => none
  | acc, '\\' :: 'u' :: h1 :: h2 :: h3 :: h4 :: rest3 =>
    match hexVal h1, hexVal h2, hexVal h3, hexVal h4 with
    | some a, some b, some c2, some d =>
      parseStrAux (Char.ofNat (a * 4096 + b * 256 + c2 * 16 + d) :: acc) rest3
    | _, _, _, _ => none
  | acc, '\\' :: e :: rest2 =>
    match escChar e with
    | some c => parseStrAux (c :: acc) rest2
    | none => none
  | _, ['\\'] => none
  | acc, c :: rest =>
    if c = '"' then some (String.mk acc.reverse, rest)
    else if c.toNat < 32 then none
    else parseStrAux (c :: acc) rest

/-- Digits to a natural number. -/
def digitsToNat (ds : List Char) : Nat :=
  ds.foldl (fun n c => n * 10 + (c.toNat - 48)) 0

/-- Natural-number part of a JSON number literal (leading zeros rejected,
fraction and exponent markers rejected: integers only in this model). -/
def parseNatPart : List Char → Option (Nat × List Char)
  | [] => none
  | c :: rest =>
    if c = '0' then
      match rest with
      | [] => some (0, [])
      | d :: _ =>
        if d.isDigit || d = '.' || d = 'e' || d = 'E' then none else some (0, rest)
    else if c.isDigit then
      let ds := rest.takeWhile Char.isDigit
      let rest2 := rest.dropWhile Char.isDigit
      match rest2 with
      | [] => some (digitsToNat (c :: ds), [])
      | d :: _ =>
        if d = '.' || d = 'e' || d = 'E' then none else some (digitsToNat (c :: ds), rest2)
    else none

/-- A JSON number literal (integers only in this model). -/
def parseNumberA : List Char → Option (Json × List Char)
  | '-' :: rest => (parseNatPart rest).map (fun p => (Json.num (-(p.1 : Int)), p.2))
  | cs => (parseNatPart cs).map (fun p => (Json.num (p.1 : Int), p.2))

/-- Recursion mode of the fueled JSON parser: a whole value, the members
of an object (with those already read), or the elements of an array. -/
inductive PMode where
  | val : PMode
  | objBody : List (String × Json) → PMode
  | arrBody : List Json → PMode

/-- Fueled recursive-descent JSON parser; the fuel decreases on every
recursive call, so any fuel at least twice the input length is enough. -/
def parseF : Nat → PMode → List Char → Option (Json × List Char)
  | 0, _, _ => none
  | Nat.succ fuel, PMode.val, cs =>
    match skipWs cs with
    | [] => none
    | c :: rest =>
      if c = '\x7b' then
        match skipWs rest with
        | '\x7d' :: r2 => some (Json.obj [], r2)
        | r2 => parseF fuel (PMode.objBody []) r2
      else if c = '[' then
        match skipWs rest with
        | ']' :: r2 => some (Json.arr [], r2)
        | r2 => parseF fuel (PMode.arrBody []) r2
      else if c = '"' then
        match parseStrAux [] rest with
        | some (s, r) => some (Json.str s, r)
        | none => none
      else if c = 't' then
        match rest with
        | 'r' :: 'u' :: 'e' :: r => some (Json.bool true, r)
        | _ => none
      else if c = 'f' then
        match rest with
        | 'a' :: 'l' :: 's' :: 'e' :: r => some (Json.bool false, r)
        | _ => none
      else if c = 'n' then
        match rest with
        | 'u' :: 'l' :: 'l' :: r => some (Json.null, r)
        | _ => none
      else parseNumberA (c :: rest)
  | Nat.succ fuel, PMode.objBody acc, cs =>
    match skipWs cs with
    | '"' :: rest =>
      match parseStrAux [] rest with
      | some (k, r1) =>
        match skipWs r1 with
        | ':' :: r2 =>
          match parseF fuel PMode.val r2 with
          | some (v, r3) =>
            match skipWs r3 with
            | ',' :: r4 => parseF fuel (PMode.objBody (objInsert acc k v)) r4
            | '\x7d' :: r4 => some (Json.obj (objInsert acc k v), r4)
            | _ => none
          | none => none
        | _ => none
      | none => none
    | _ => none
  | Nat.succ fuel, PMode.arrBody acc, cs =>
    match parseF fuel PMode.val cs with
    | some (v, r1) =>
      match skipWs r1 with
      | ',' :: r2 => parseF fuel (PMode.arrBody (acc ++ [v])) r2
      | ']' :: r2 => some (Json.arr (acc ++ [v]), r2)
      | _ => none
    | none => none

/-- One JSON value. -/
def parseValue (fuel : Nat) (cs : List Char) : Option (Json × List Char) :=
  parseF fuel PMode.val cs

/-- Model of `json.loads`: parse one value, allow surrounding whitespace,
require the whole input to be consumed; `none` models `JSONDecodeError`. -/
def loads (s : String) : Option Json :=
  match parseValue (2 * s.length + 2) s.data with
  | some (v, rest) => if skipWs rest = [] then some v else none
  | none => none

/-- The ASCII whitespace stripped by Python `str.strip()`. -/
def pyIsSpace (c : Char) : Bool :=
  c = ' ' || c = '\t' || c = '\n' || c = '\r' || c = '\x0c' || c = '\x0b'

/-- Model of Python `str.strip()` (ASCII whitespace). -/
def pyStrip (s : String) : String :=
  String.mk (((s.data.dropWhile pyIsSpace).reverse.dropWhile pyIsSpace).reverse)

/-- One loop iteration of `read_events_file` (view-events.py, lines 70-83):
strip the line, skip it when empty, append it to the pending buffer, and
when the stripped line is exactly a closing brace try to parse the joined
buffer; a successful parse emits the record and resets the buffer. -/
def readStep (st : List Json × List String) (line : String) : List Json × List String :=
  let l := pyStrip line
  if l = "" then st
  else
    let buf := st.2 ++ [l]
    if l = "\x7d" then
      match loads (String.intercalate "\n" buf) with
      | some e => (st.1 ++ [e], [])
      | none => (st.1, buf)
    else (st.1, buf)

/-- Fold `readStep` over the physical lines of the file from a given
(events, buffer) state. -/
def readEventsAux (st : List Json × List String) (lines : List String) :
    List Json × List String :=
  lines.foldl readStep st

/-- `read_events_file` (view-events.py, lines 64-85): recover the event
records of a file, given as its list of physical lines. -/
def read_events_file (lines : List String) : List Json :=
  (readEventsAux ([], []) lines).1

example : loads "\x7b\"a\": 1\x7d" = some (Json.obj [("a", Json.num 1)]) := by rfl

example : loads "\x7b\"a\": 1" = none := by rfl

example :
    read_events_file ["\x7b", "\"a\": 1,", "\"b\": \"x\"", "\x7d"] =
      [Json.obj [("a", Json.num 1), ("b", Json.str "x")]] := by rfl

example : read_events_file ["\x7b\"a\": 1\x7d"] = [] := by rfl

/-- `readStep` only ever appends to the event list: running it from events
`evs` equals running it from no events and prepending `evs`. -/
theorem readStep_shift (evs : List Json) (buf : List String) (line : String) :
    readStep (evs, buf) line =
      (evs ++ (readStep ([], buf) line).1, (readStep ([], buf) line).2) := by
  unfold readStep
  by_cases h1 : pyStrip line = ""
  · simp [h1]
  · by_cases h2 : pyStrip line = "\x7d"
    · simp only [h1, h2, if_false, if_true, ite_false, ite_true]
      rcases hl : loads (String.intercalate "\n" (buf ++ ["\x7d"])) with _ | e <;>
        simp [hl]
    · simp [h1, h2]

/-- Folding the recoverer over `l1 ++ l2` is folding over `l1` then `l2`. -/
theorem readEventsAux_append (st : List Json × List String) (l1 l2 : List String) :
    readEventsAux st (l1 ++ l2) = readEventsAux (readEventsAux st l1) l2 := by
  simp [readEventsAux, List.foldl_append]

/-- The recoverer only ever appends to the event list. -/
theorem readEventsAux_shift (lines : List String) :
    ∀ (evs : List Json) (buf : List String),
      readEventsAux (evs, buf) lines =
        (evs ++ (readEventsAux ([], buf) lines).1, (readEventsAux ([], buf) lines).2) := by
  induction lines with
  | nil => intro evs buf; simp [readEventsAux]
  | cons l ls ih =>
    intro evs buf
    show readEventsAux (readStep (evs, buf) l) ls = _
    rw [readStep_shift]
    rcases hp : readStep ([], buf) l with ⟨e1, b1⟩
    have hR : readEventsAux ([], buf) (l :: ls) = readEventsAux (e1, b1) ls := by
      show readEventsAux (readStep ([], buf) l) ls = _
      rw [hp]
    rw [hR, ih (evs ++ e1) b1, ih e1 b1]
    simp

/-- Processing a concatenation of blocks, each of which alone yields one
record and an empty buffer, followed by a tail, yields those records and
then whatever the tail alone yields. -/
theorem readBlocks (blocks : List (List String × Json))
    (h : ∀ b ∈ blocks, readEventsAux ([], []) b.1 = ([b.2], []))
    (tail : List String) :
    readEventsAux ([], []) ((blocks.map Prod.fst).flatten ++ tail) =
      (blocks.map Prod.snd ++ (readEventsAux ([], []) tail).1,
        (readEventsAux ([], []) tail).2) := by
  induction blocks with
  | nil => simp
  | cons b bs ih =>
    obtain ⟨ls, v⟩ := b
    have hb : readEventsAux ([], []) ls = ([v], []) := h (ls, v) (List.mem_cons_self _ _)
    have hrest : ∀ b ∈ bs, readEventsAux ([], []) b.1 = ([b.2], []) :=
      fun b hb2 => h b (List.mem_cons_of_mem _ hb2)
    simp only [List.map_cons, List.flatten_cons, List.append_assoc]
    rw [readEventsAux_append, hb, readEventsAux_shift, ih hrest]
    simp

/-- C1: the claim states that a log of K well-formed records yields exactly
K content-equal records in order, whether the records are single-line or
pretty-printed.  That fails for single-line records (see the
counterexample), so this is the amended form: for every log file whose
physical lines are a concatenation of blocks, each of which alone drives
`read_events_file` from an empty buffer to exactly one parsed record and
an empty buffer (as pretty-printed records whose closing brace stands
alone on the final line do), the recoverer yields exactly those records,
content-equal and in file order. -/
theorem read_events_file_recovers_blocks (blocks : List (List String × Json))
    (h : ∀ b ∈ blocks, readEventsAux ([], []) b.1 = ([b.2], [])) :
    read_events_file ((blocks.map Prod.fst).flatten) = blocks.map Prod.snd := by
  have h2 := readBlocks blocks h []
  simp only [List.append_nil] at h2
  simp only [read_events_file, h2]
  simp [readEventsAux]

theorem read_events_file_recovers_blocks_witness :
    read_events_file
        ["\x7b", "\"timestamp\": \"2025-08-18T10:00:00Z\",",
          "\"eventCategory\": \"STATE_CHANGE\"", "\x7d",
          "\x7b", "\"timestamp\": \"2025-08-18T10:00:01Z\",",
          "\"eventCategory\": \"TIMEOUT\"", "\x7d"] =
      [Json.obj [("timestamp", Json.str "2025-08-18T10:00:00Z"),
        ("eventCategory", Json.str "STATE_CHANGE")],
       Json.obj [("timestamp", Json.str "2025-08-18T10:00:01Z"),
        ("eventCategory", Json.str "TIMEOUT")]] := by
  have h := read_events_file_recovers_blocks
    [(["\x7b", "\"timestamp\": \"2025-08-18T10:00:00Z\",",
        "\"eventCategory\": \"STATE_CHANGE\"", "\x7d"],
      Json.obj [("timestamp", Json.str "2025-08-18T10:00:00Z"),
        ("eventCategory", Json.str "STATE_CHANGE")]),
     (["\x7b", "\"timestamp\": \"2025-08-18T10:00:01Z\",",
        "\"eventCategory\": \"TIMEOUT\"", "\x7d"],
      Json.obj [("timestamp", Json.str "2025-08-18T10:00:01Z"),
        ("eventCategory", Json.str "TIMEOUT")])]
    (by intro b hb
        simp only [List.mem_cons, List.mem_singleton] at hb
        rcases hb with rfl | rfl | h0
        · rfl
        · rfl
        · exact absurd h0 (by simp))
  exact h

/-- C1 counterexample: a log whose single line is one well-formed JSON
record (the parse succeeds) from which `read_events_file` recovers zero
records instead of one — single-line records are never emitted because no
stripped line is exactly a closing brace. -/
theorem read_events_file_single_line_cex :
    loads "\x7b\"timestamp\": \"2025-08-18T10:00:00Z\", \"eventCategory\": \"STATE_CHANGE\"\x7d" =
      some (Json.obj [("timestamp", Json.str "2025-08-18T10:00:00Z"),
        ("eventCategory", Json.str "STATE_CHANGE")]) ∧
    (read_events_file
        ["\x7b\"timestamp\": \"2025-08-18T10:00:00Z\", \"eventCategory\": \"STATE_CHANGE\"\x7d"]).length
      = 0 := ⟨rfl, rfl⟩

/-- C2 (amended): a log made of recoverable multi-line blocks followed by
a trailing fragment from which the recoverer alone extracts no record (in
particular a truncated, never-closing fragment) yields exactly the block
records: the fragment is silently dropped and the read never aborts. -/
theorem read_events_file_drops_tail_fragment (blocks : List (List String × Json))
    (frag : List String)
    (h : ∀ b ∈ blocks, readEventsAux ([], []) b.1 = ([b.2], []))
    (hf : (readEventsAux ([], []) frag).1 = []) :
    read_events_file ((blocks.map Prod.fst).flatten ++ frag) = blocks.map Prod.snd := by
  simp only [read_events_file, readBlocks blocks h frag, hf, List.append_nil]

theorem read_events_file_drops_tail_fragment_witness :
    read_events_file
        ["\x7b", "\"timestamp\": \"2025-08-18T12:00:00Z\",",
          "\"eventCategory\": \"REGISTRY_CREATE\"", "\x7d",
          "\x7b", "\"timestamp\": \"2025-08-18T12:00:0"] =
      [Json.obj [("timestamp", Json.str "2025-08-18T12:00:00Z"),
        ("eventCategory", Json.str "REGISTRY_CREATE")]] := by
  have h := read_events_file_drops_tail_fragment
    [(["\x7b", "\"timestamp\": \"2025-08-18T12:00:00Z\",",
        "\"eventCategory\": \"REGISTRY_CREATE\"", "\x7d"],
      Json.obj [("timestamp", Json.str "2025-08-18T12:00:00Z"),
        ("eventCategory", Json.str "REGISTRY_CREATE")])]
    ["\x7b", "\"timestamp\": \"2025-08-18T12:00:0"]
    (by intro b hb
        simp only [List.mem_singleton] at hb
        subst hb
        rfl)
    rfl
  exact h

/-- C2 counterexample: one well-formed single-line record followed by a
truncated fragment yields zero records, not one — the claim already fails
on the well-formed prefix when it is laid out on a single line. -/
theorem read_events_file_tail_cex :
    loads "\x7b\"timestamp\": \"2025-08-18T12:00:00Z\", \"eventCategory\": \"TIMEOUT\"\x7d" =
      some (Json.obj [("timestamp", Json.str "2025-08-18T12:00:00Z"),
        ("eventCategory", Json.str "TIMEOUT")]) ∧
    (read_events_file
        ["\x7b\"timestamp\": \"2025-08-18T12:00:00Z\", \"eventCategory\": \"TIMEOUT\"\x7d",
          "\x7b\"timestamp\": \"2025-08-18T12:"]).length = 0 := ⟨rfl, rfl⟩

/-- Python list slice `xs[start:]` (no stop, either sign of start). -/
def pySliceFrom {α : Type} (start : Int) (xs : List α) : List α :=
  let L : Int := xs.length
  let s : Int := if start < 0 then max (L + start) 0 else min start L
  xs.drop s.toNat

/-- The `--last` window (view-events.py, line 163): `events[-last_n:]`. -/
def lastWindow {α : Type} (last_n : Int) (events : List α) : List α :=
  pySliceFrom (-last_n) events

/-- C3 (amended): for `N > 0` the window is the final `min(N, L)` records
in original order; for `N = 0` it is the full sequence; but for `N < 0`
the Python slice `events[-N:]` instead drops the first `min(-N, L)`
records (empty when `-N ≥ L`), not the full sequence the claim states. -/
theorem lastWindow_spec {α : Type} (n : Int) (xs : List α) :
    (0 < n →
      lastWindow n xs = xs.drop (xs.length - min n.toNat xs.length) ∧
      (lastWindow n xs).length = min n.toNat xs.length) ∧
    (n = 0 → lastWindow n xs = xs) ∧
    (n < 0 → lastWindow n xs = xs.drop (min (-n).toNat xs.length)) := by
  refine ⟨fun h => ?_, fun h => ?_, fun h => ?_⟩
  · have hs : (-n) < (0 : Int) := by omega
    have hidx : (max ((xs.length : Int) + -n) 0).toNat =
        xs.length - min n.toNat xs.length := by omega
    constructor
    · simp only [lastWindow, pySliceFrom, if_pos hs, hidx]
    · simp only [lastWindow, pySliceFrom, if_pos hs, hidx, List.length_drop]
      omega
  · subst h
    simp [lastWindow, pySliceFrom]
  · have hs : ¬((-n) < (0 : Int)) := by omega
    have hidx : (min (-n) (xs.length : Int)).toNat = min (-n).toNat xs.length := by
      omega
    simp only [lastWindow, pySliceFrom, if_neg hs, hidx]

theorem lastWindow_spec_witness :
    lastWindow 2 ([10, 20, 30] : List Nat) =
      [10, 20, 30].drop ([10, 20, 30].length - min (Int.toNat 2) [10, 20, 30].length) :=
  ((lastWindow_spec 2 [10, 20, 30]).1 (by decide)).1

/-- C3 counterexample: for `N = -1` on a two-record sequence the code
returns only the final record, while the claim says every `N ≤ 0` returns
the full sequence. -/
theorem lastWindow_neg_cex :
    lastWindow (-1) ([10, 20] : List Nat) = [20] ∧ ([20] : List Nat) ≠ [10, 20] := by
  decide

/-- Whether a JSON value is an object (a Python dict). -/
def Json.isObj : Json → Bool
  | .obj _ => true
  | _ => false

/-- Python `event.get(key)` with default `None`: succeeds on a dict,
raises `AttributeError` on anything else. -/
def pyGet (j : Json) (k : String) : Except String Json :=
  match j with
  | .obj kvs => .ok ((lookupKV kvs k).getD .null)
  | _ => .error "AttributeError: value has no attribute get"

/-- Pure field access on an object (`None` when missing or not a dict). -/
def objGet (j : Json) (k : String) : Json :=
  match j with
  | .obj kvs => (lookupKV kvs k).getD .null
  | _ => .null

/-- Python `v == x` where `v` is a `str` and `x` any parsed JSON value:
true exactly for an equal string (`str == None` and cross-type
comparisons are `False`). -/
def pyEqStr (v : String) : Json → Bool
  | .str t => v = t
  | _ => false

/-- The filter loop (view-events.py, lines 148-155): keep an event when
the filter value equals its category, type, or machine id, with Python
short-circuit `or`; `event.get` raises on a non-dict event. -/
def filterLoop (filter_val : String) (filtered : List Json) :
    List Json → Except String (List Json)
  | [] => .ok filtered
  | event :: rest => do
    let c ← pyGet event "eventCategory"
    if pyEqStr filter_val c then filterLoop filter_val (filtered ++ [event]) rest
    else
      let t ← pyGet event "eventType"
      if pyEqStr filter_val t then filterLoop filter_val (filtered ++ [event]) rest
      else
        let m ← pyGet event "machineId"
        if pyEqStr filter_val m then filterLoop filter_val (filtered ++ [event]) rest
        else filterLoop filter_val filtered rest

/-- The `--filter` operator (view-events.py, lines 144-156). -/
def filterEvents (filter_val : String) (events : List Json) : Except String (List Json) :=
  filterLoop filter_val [] events

/-- The claim predicate: the filter value equals the category, the type,
or the machine identifier of the record. -/
def matchesFilter (v : String) (e : Json) : Bool :=
  pyEqStr v (objGet e "eventCategory") || pyEqStr v (objGet e "eventType") ||
    pyEqStr v (objGet e "machineId")

theorem exceptBind_ok {ε α β : Type} (a : α) (f : α → Except ε β) :
    (Except.ok (ε := ε) a >>= f) = f a := rfl

theorem filterLoop_ok (v : String) :
    ∀ (events acc : List Json), (∀ e ∈ events, e.isObj = true) →
      filterLoop v acc events = .ok (acc ++ events.filter (matchesFilter v)) := by
  intro events
  induction events with
  | nil => intro acc h; simp [filterLoop]
  | cons e rest ih =>
    intro acc h
    have he : e.isObj = true := h e (List.mem_cons_self _ _)
    have hrest : ∀ x ∈ rest, x.isObj = true :=
      fun x hx => h x (List.mem_cons_of_mem _ hx)
    cases e with
    | null => simp [Json.isObj] at he
    | bool b => simp [Json.isObj] at he
    | num m => simp [Json.isObj] at he
    | str s => simp [Json.isObj] at he
    | arr xs => simp [Json.isObj] at he
    | obj kvs =>
    simp only [filterLoop, pyGet, exceptBind_ok]
    by_cases h1 : pyEqStr v ((lookupKV kvs "eventCategory").getD Json.null) = true
    · simp only [h1, if_true, ite_true, ih _ hrest]
      simp [List.filter_cons, matchesFilter, objGet, h1]
    · by_cases h2 : pyEqStr v ((lookupKV kvs "eventType").getD Json.null) = true
      · simp only [h1, h2, if_true, if_false, ite_true, ite_false, ih _ hrest]
        simp [List.filter_cons, matchesFilter, objGet, h1, h2]
      · by_cases h3 : pyEqStr v ((lookupKV kvs "machineId").getD Json.null) = true
        · simp only [h1, h2, h3, if_true, if_false, ite_true, ite_false, ih _ hrest]
          simp [List.filter_cons, matchesFilter, objGet, h1, h2, h3]
        · simp only [h1, h2, h3, if_false, ite_false, ih _ hrest]
          simp [List.filter_cons, matchesFilter, objGet, h1, h2, h3]

/-- C4: on a sequence of records (dicts), the single-value filter returns
exactly the subsequence, in original order, of records whose category,
type, or machine identifier equals the filter value — a match on any one
of the three fields qualifies and no other record is included. -/
theorem filterEvents_spec (v : String) (events : List Json)
    (h : ∀ e ∈ events, e.isObj = true) :
    filterEvents v events = .ok (events.filter (matchesFilter v)) ∧
    (events.filter (matchesFilter v)).Sublist events :=
  ⟨by simpa using filterLoop_ok v events [] h, List.filter_sublist _⟩

theorem filterEvents_spec_witness :
    filterEvents "call-001"
        [Json.obj [("eventCategory", Json.str "STATE_CHANGE"),
          ("machineId", Json.str "call-001")],
         Json.obj [("eventCategory", Json.str "TIMEOUT"),
          ("machineId", Json.str "call-002")],
         Json.obj [("eventType", Json.str "call-001")]] =
      .ok ([Json.obj [("eventCategory", Json.str "STATE_CHANGE"),
          ("machineId", Json.str "call-001")],
         Json.obj [("eventCategory", Json.str "TIMEOUT"),
          ("machineId", Json.str "call-002")],
         Json.obj [("eventType", Json.str "call-001")]].filter (matchesFilter "call-001")) ∧
    ([Json.obj [("eventCategory", Json.str "STATE_CHANGE"),
          ("machineId", Json.str "call-001")],
         Json.obj [("eventCategory", Json.str "TIMEOUT"),
          ("machineId", Json.str "call-002")],
         Json.obj [("eventType", Json.str "call-001")]].filter
        (matchesFilter "call-001")).Sublist
      [Json.obj [("eventCategory", Json.str "STATE_CHANGE"),
          ("machineId", Json.str "call-001")],
         Json.obj [("eventCategory", Json.str "TIMEOUT"),
          ("machineId", Json.str "call-002")],
         Json.obj [("eventType", Json.str "call-001")]] :=
  filterEvents_spec "call-001" _ (by decide)

/-- Model of Python `int(s)` on a string: strip whitespace, optional
sign, then decimal digits; `none` models the `ValueError` raise. -/
def pyIntParse (s : String) : Option Int :=
  let cs := ((s.data.dropWhile pyIsSpace).reverse.dropWhile pyIsSpace).reverse
  let core := match cs with
    | '-' :: rest => ((-1 : Int), rest)
    | '+' :: rest => ((1 : Int), rest)
    | _ => ((1 : Int), cs)
  if !core.2.isEmpty && core.2.all Char.isDigit then
    some (core.1 * (digitsToNat core.2 : Int))
  else none

/-- The `--last` argument handling (view-events.py, lines 159-163):
`int(sys.argv[last_idx + 1])` followed by the slice; the `ValueError`
raised on a non-numeric argument is not caught anywhere in `main`. -/
def handleLastArg (arg : String) (events : List Json) : Except String (List Json) :=
  match pyIntParse arg with
  | some n => .ok (lastWindow n events)
  | none => .error "ValueError: invalid literal for int() with base 10"

/-- C5 (amended): a non-numeric `--last` value makes `int()` raise a
`ValueError` that `main` never catches, so the command aborts with an
uncaught exception — deterministic, but no controlled rejection message
is printed (and there is no silent defaulting). -/
theorem handleLastArg_nonnumeric (s : String) (events : List Json)
    (h : pyIntParse s = none) :
    handleLastArg s events = .error "ValueError: invalid literal for int() with base 10" := by
  simp [handleLastArg, h]

theorem handleLastArg_nonnumeric_witness :
    handleLastArg "abc" [] = .error "ValueError: invalid literal for int() with base 10" :=
  handleLastArg_nonnumeric "abc" [] rfl

/-- C5 counterexample: at the concrete non-numeric argument `"ten"` the
code takes the uncaught-exception path instead of a handled rejection. -/
theorem handleLastArg_cex :
    pyIntParse "ten" = none ∧
    handleLastArg "ten" [Json.null] =
      .error "ValueError: invalid literal for int() with base 10" := ⟨rfl, rfl⟩

/-- `n` spaces. -/
def spaces (n : Nat) : String := String.mk (List.replicate n ' ')

/-- JSON string escaping for one character (the common escapes; non-ASCII
escaping of `ensure_ascii` is not modelled). -/
def escape1 (c : Char) : List Char :=
  if c = '"' then ['\\', '"']
  else if c = '\\' then ['\\', '\\']
  else if c = '\n' then ['\\', 'n']
  else if c = '\r' then ['\\', 'r']
  else if c = '\t' then ['\\', 't']
  else [c]

/-- JSON string escaping. -/
def jsonEscape (s : String) : String :=
  String.mk (s.data.foldr (fun c acc => escape1 c ++ acc) [])

mutual

/-- Model of `json.dumps(x, indent=2)` at the stdlib boundary. -/
def dumpsV : Json → Nat → String
  | .null, _ => "null"
  | .bool true, _ => "true"
  | .bool false, _ => "false"
  | .num n, _ => toString n
  | .str s, _ => "\"" ++ jsonEscape s ++ "\""
  | .arr [], _ => "[]"
  | .arr (x :: xs), ind =>
    "[\n" ++ String.intercalate ",\n" (dumpsL (x :: xs) (ind + 2)) ++ "\n" ++
      spaces ind ++ "]"
  | .obj [], _ => "\x7b\x7d"
  | .obj (kv :: kvs), ind =>
    "\x7b\n" ++ String.intercalate ",\n" (dumpsKV (kv :: kvs) (ind + 2)) ++ "\n" ++
      spaces ind ++ "\x7d"

def dumpsL : List Json → Nat → List String
  | [], _ => []
  | x :: xs, ind => (spaces ind ++ dumpsV x ind) :: dumpsL xs ind

def dumpsKV : List (String × Json) → Nat → List String
  | [], _ => []
  | (k, v) :: kvs, ind =>
    (spaces ind ++ "\"" ++ jsonEscape k ++ "\": " ++ dumpsV v ind) :: dumpsKV kvs ind

end

mutual

/-- Model of Python `repr` on JSON-derived values (string quoting and
escaping approximated at the stdlib boundary). -/
def pyReprV : Json → String
  | .null => "None"
  | .bool true => "True"
  | .bool false => "False"
  | .num n => toString n
  | .str s => "\x27" ++ s ++ "\x27"
  | .arr xs => "[" ++ String.intercalate ", " (pyReprL xs) ++ "]"
  | .obj kvs => "\x7b" ++ String.intercalate ", " (pyReprKV kvs) ++ "\x7d"

def pyReprL : List Json → List String
  | [] => []
  | x :: xs => pyReprV x :: pyReprL xs

def pyReprKV : List (String × Json) → List String
  | [] => []
  | (k, v) :: kvs => ("\x27" ++ k ++ "\x27: " ++ pyReprV v) :: pyReprKV kvs

end

/-- Model of Python `str()` on JSON-derived values: a string as itself,
anything else via `repr`. -/
def pyStr : Json → String
  | .str s => s
  | j => pyReprV j

/-- Python `event.get(key, default)`: succeeds on a dict, raises
`AttributeError` on anything else. -/
def pyGetD (j : Json) (k : String) (d : Json) : Except String Json :=
  match j with
  | .obj kvs => .ok ((lookupKV kvs k).getD d)
  | _ => .error "AttributeError: value has no attribute get"

/-- Python truthiness of a JSON-derived value. -/
def pyTruthy : Json → Bool
  | .null => false
  | .bool b => b
  | .num n => n ≠ 0
  | .str s => s ≠ ""
  | .arr xs => !xs.isEmpty
  | .obj kvs => !kvs.isEmpty

/-- Python `x > 0` on a JSON-derived value: numbers and booleans compare,
anything else raises `TypeError`. -/
def pyGtZero : Json → Except String Bool
  | .num n => .ok (decide (0 < n))
  | .bool b => .ok b
  | _ => .error "TypeError: not supported between instances of str and int"

/-- The value of one two-digit group. -/
def twoDigits (a b : Char) : Nat := (a.toNat - 48) * 10 + (b.toNat - 48)

/-- Fueled replace-all over character lists (pattern assumed nonempty). -/
def replaceF : Nat → List Char → List Char → List Char → List Char
  | 0, cs, _, _ => cs
  | Nat.succ fuel, cs, pat, rep =>
    match cs with
    | [] => []
    | c :: rest =>
      if List.isPrefixOf pat cs then rep ++ replaceF fuel (cs.drop pat.length) pat rep
      else c :: replaceF fuel rest pat rep

/-- Model of Python `str.replace` (nonempty pattern). -/
def pyReplace (s pat rep : String) : String :=
  String.mk (replaceF s.data.length s.data pat.data rep.data)

/-- Model of the stdlib boundary `datetime.fromisoformat` followed by
`strftime("%H:%M:%S")`: for a well-formed ISO date or date-time string
(with optional fractional seconds or offset) return HH:MM:SS, otherwise
`none` (modelling the `ValueError` that the bare `except` swallows). -/
def isoToHMS (s : String) : Option String :=
  let cs := s.data
  let at_ := fun (i : Nat) => cs.getD i '?'
  let dg := fun (i : Nat) => (at_ i).isDigit
  let mm := twoDigits (at_ 5) (at_ 6)
  let dd := twoDigits (at_ 8) (at_ 9)
  let okDate : Bool :=
    dg 0 && dg 1 && dg 2 && dg 3 && (at_ 4 == '-') && dg 5 && dg 6 &&
      (at_ 7 == '-') && dg 8 && dg 9 &&
      decide (1 ≤ mm) && decide (mm ≤ 12) && decide (1 ≤ dd) && decide (dd ≤ 31)
  if okDate then
    if cs.length == 10 then some "00:00:00"
    else
      let hh := twoDigits (at_ 11) (at_ 12)
      let mi := twoDigits (at_ 14) (at_ 15)
      let ss := twoDigits (at_ 17) (at_ 18)
      let tail := cs.drop 19
      let okTime : Bool :=
        decide (19 ≤ cs.length) && dg 11 && dg 12 && (at_ 13 == ':') &&
          dg 14 && dg 15 && (at_ 16 == ':') && dg 17 && dg 18 &&
          decide (hh ≤ 23) && decide (mi ≤ 59) && decide (ss ≤ 59) &&
          (tail.isEmpty || (tail.headD '?' == '.') || (tail.headD '?' == '+') ||
            (tail.headD '?' == '-'))
      if okTime then some (String.mk ((cs.drop 11).take 8)) else none
  else none

/-- The inner timestamp try/except of `format_event` (view-events.py,
lines 13-18): replace `Z`, parse, reformat; any failure — including a
non-string timestamp — is swallowed by the bare `except` and leaves the
value unchanged. -/
def tsFormat (t : Json) : Json :=
  match t with
  | .str s =>
    match isoToHMS (pyReplace s "Z" "+00:00") with
    | some hms => .str hms
    | none => .str s
  | other => other

/-- The body of `format_event` (view-events.py, lines 9-60), with Python
exceptions modelled as `Except.error`: every `.get` on a non-dict, and
the `processing_time > 0` comparison on a non-number, raise here. -/
def formatEventBody (event_json : Json) : Except String String := do
  let ts0 ← pyGetD event_json "timestamp" (Json.str "N/A")
  let timestamp := if pyEqStr "N/A" ts0 then ts0 else tsFormat ts0
  let l0 := "\n" ++ String.mk (List.replicate 60 '=')
  let l1 := "🕐 Time: " ++ pyStr timestamp
  let cat ← pyGetD event_json "eventCategory" (Json.str "N/A")
  let l2 := "📁 Category: " ++ pyStr cat
  let ty ← pyGetD event_json "eventType" (Json.str "N/A")
  let l3 := "📋 Type: " ++ pyStr ty
  let output1 := [l0, l1, l2, l3]
  let machine_id ← pyGet event_json "machineId"
  let output2 :=
    if pyTruthy machine_id then output1 ++ ["🤖 Machine: " ++ pyStr machine_id]
    else output1
  let state_before ← pyGet event_json "stateBefore"
  let state_after ← pyGet event_json "stateAfter"
  let output3 :=
    if pyTruthy state_before && pyTruthy state_after then
      output2 ++ ["🔄 Transition: " ++ pyStr state_before ++ " → " ++ pyStr state_after]
    else output2
  let source ← pyGet event_json "source"
  let dest ← pyGet event_json "destination"
  let output4 :=
    if pyTruthy source && pyTruthy dest then
      output3 ++ ["📍 Flow: " ++ pyStr source ++ " → " ++ pyStr dest]
    else output3
  let success ← pyGetD event_json "success" (Json.bool true)
  let output5 ←
    if !pyTruthy success then do
      let em ← pyGetD event_json "errorMessage" (Json.str "Unknown error")
      pure (output4 ++ ["❌ Error: " ++ pyStr em])
    else pure (output4 ++ ["✅ Success"])
  let processing_time ← pyGetD event_json "processingTimeMs" (Json.num 0)
  let gt ← pyGtZero processing_time
  let output6 :=
    if gt then output5 ++ ["⏱️ Processing: " ++ pyStr processing_time ++ "ms"]
    else output5
  let details ← pyGet event_json "eventDetails"
  let output7 :=
    if pyTruthy details then output6 ++ ["📝 Details: " ++ dumpsV details 0]
    else output6
  pure (String.intercalate "\n" output7)

/-- `format_event` (view-events.py, lines 7-62): the whole body runs
inside `try`, and `except Exception as e` renders the failure. -/
def format_event (event_json : Json) : String :=
  match formatEventBody event_json with
  | .ok s => s
  | .error e => "Error formatting event: " ++ e

/-- C10: `format_event` is total — for every input it returns a string:
either the formatted body, or, when the body raises internally (as it
does for a non-numeric `processingTimeMs`, evaluated here concretely),
the caught exception rendered as an error string. -/
theorem format_event_total :
    (∀ j : Json,
      (∃ s, formatEventBody j = .ok s ∧ format_event j = s) ∨
      (∃ m, formatEventBody j = .error m ∧
        format_event j = "Error formatting event: " ++ m)) ∧
    format_event (Json.obj [("timestamp", Json.str "2025-08-18T10:00:00Z"),
        ("eventCategory", Json.str "STATE_CHANGE"),
        ("processingTimeMs", Json.str "fast")]) =
      "Error formatting event: TypeError: not supported between instances of str and int" := by
  constructor
  · intro j
    cases hb : formatEventBody j with
    | ok s => exact Or.inl ⟨s, rfl, by simp [format_event, hb]⟩
    | error m => exact Or.inr ⟨m, rfl, by simp [format_event, hb]⟩
  · rfl

/-- The file the summary command opens (summarize-events.py, line 12):
a hard-coded path, not a function of the current date. -/
def summaryFilePath : String := "event-store/events-2025-08-18.jsonl"

/-- The log-file naming convention `event-store/events-<date>.jsonl`
(view-events.py, line 131). -/
def viewLogPath (date : String) : String :=
  "event-store/events-" ++ date ++ ".jsonl"

/-- C6: the summary command is claimed (and commented in the source) to
read the current date's log file, but the path it opens is the fixed
2025-08-18 file: on any other current date (2026-10-12 here) the opened
path is not that date's file. -/
theorem summaryFilePath_fixed :
    summaryFilePath = viewLogPath "2025-08-18" ∧
    summaryFilePath ≠ viewLogPath "2026-10-12" := by
  refine ⟨rfl, by decide⟩

/-- Whether `needle` occurs as a contiguous run of `hay`. -/
def isSubstringL (needle : List Char) : List Char → Bool
  | [] => needle.isEmpty
  | c :: rest => decide ((c :: rest).take needle.length = needle) || isSubstringL needle rest

/-- Python `needle in hay` for strings: substring containment. -/
def pyIn (needle hay : String) : Bool :=
  isSubstringL needle.data hay.data

/-- Python `needle in x` requires a string `x` here; a non-string raises
`TypeError` (list/dict membership is not reached by these records). -/
def expectStr : Json → Except String String
  | .str s => .ok s
  | _ => .error "TypeError: argument is not iterable"

/-- Python `int(x)` on a JSON-derived value. -/
def pyIntOfJson : Json → Except String Int
  | .num n => .ok n
  | .bool b => .ok (if b then 1 else 0)
  | .str s =>
    match pyIntParse s with
    | some n => .ok n
    | none => .error "ValueError: invalid literal for int() with base 10"
  | _ => .error "TypeError: int() argument must be a string or a number"

/-- The condensed summary phrase (summarize-events.py, lines 59-97):
category/type extraction and the category-keyed branch chain, in source
order (the registry branches are tested before the transport ones). -/
def summaryPhrase (e : Json) : Except String String := do
  let category ← pyGetD e "eventCategory" (Json.str "N/A")
  let event_type ← pyGetD e "eventType" (Json.str "")
  let c ← expectStr category
  if pyIn "REGISTRY_CREATE" c then pure "Machine created and registered"
  else if pyIn "REGISTRY_REMOVE" c then pure "Machine removed from registry"
  else if pyIn "REGISTRY_REHYDRATE" c then pure "Machine rehydrated from offline"
  else if pyIn "WEBSOCKET_IN" c then do
    let details ← pyGetD e "eventDetails" (Json.obj [])
    if pyEqStr "INCOMING_CALL" event_type then do
      let phone ← pyGetD details "phoneNumber" (Json.str "unknown")
      pure ("← Received INCOMING_CALL from " ++ pyStr phone)
    else if pyEqStr "SESSION_PROGRESS" event_type then do
      let ring ← pyGetD details "ringNumber" (Json.num 0)
      let n ← pyIntOfJson ring
      pure ("← Received SESSION_PROGRESS (ring #" ++ toString n ++ ")")
    else pure ("← Received " ++ pyStr event_type)
  else if pyIn "WEBSOCKET_OUT" c then
    if pyEqStr "STATE_CHANGE" event_type then do
      let before ← pyGetD e "stateBefore" (Json.str "?")
      let after ← pyGetD e "stateAfter" (Json.str "?")
      pure ("→ State changed: " ++ pyStr before ++ " → " ++ pyStr after)
    else if pyEqStr "REGISTRY_CREATE" event_type then pure "→ Broadcast machine creation"
    else pure ("→ Broadcast " ++ pyStr event_type)
  else if pyIn "STATE_CHANGE" c then do
    let before ← pyGetD e "stateBefore" (Json.str "?")
    let after ← pyGetD e "stateAfter" (Json.str "?")
    pure ("State transition: " ++ pyStr before ++ " → " ++ pyStr after)
  else if pyIn "TIMEOUT" c then do
    let before ← pyGetD e "stateBefore" (Json.str "?")
    let after ← pyGetD e "stateAfter" (Json.str "?")
    pure ("Timeout fired: " ++ pyStr before ++ " → " ++ pyStr after)
  else pure (pyStr category ++ ": " ++ pyStr event_type)

/-- C7 (amended): the claimed phrase is produced for a record whose
category contains `WEBSOCKET_IN` only when the category contains none of
the registry signals that the source tests first; with that proviso,
type `INCOMING_CALL` and a `phoneNumber` of `+1-555-1234` render exactly
the claimed condensed phrase. -/
theorem summaryPhrase_incoming_call (e : Json) (c : String)
    (hcat : pyGetD e "eventCategory" (Json.str "N/A") = .ok (Json.str c))
    (h1 : pyIn "WEBSOCKET_IN" c = true)
    (h2 : pyIn "REGISTRY_CREATE" c = false)
    (h3 : pyIn "REGISTRY_REMOVE" c = false)
    (h4 : pyIn "REGISTRY_REHYDRATE" c = false)
    (hty : pyGetD e "eventType" (Json.str "") = .ok (Json.str "INCOMING_CALL"))
    (dts : Json)
    (hdt : pyGetD e "eventDetails" (Json.obj []) = .ok dts)
    (hph : pyGetD dts "phoneNumber" (Json.str "unknown") = .ok (Json.str "+1-555-1234")) :
    summaryPhrase e = .ok "← Received INCOMING_CALL from +1-555-1234" := by
  simp [summaryPhrase, hcat, hty, hdt, hph, h1, h2, h3, h4, expectStr,
    exceptBind_ok, pyEqStr, pyStr]

theorem summaryPhrase_incoming_call_witness :
    summaryPhrase (Json.obj [("eventCategory", Json.str "WEBSOCKET_IN"),
        ("eventType", Json.str "INCOMING_CALL"),
        ("eventDetails", Json.obj [("phoneNumber", Json.str "+1-555-1234")])]) =
      .ok "← Received INCOMING_CALL from +1-555-1234" :=
  summaryPhrase_incoming_call _ "WEBSOCKET_IN" rfl rfl rfl rfl rfl rfl
    (Json.obj [("phoneNumber", Json.str "+1-555-1234")]) rfl rfl

/-- C7 counterexample: a category containing both `REGISTRY_CREATE` and
`WEBSOCKET_IN` satisfies the claim's hypothesis but renders the registry
phrase, because the registry branch is tested first. -/
theorem summaryPhrase_cex :
    pyIn "WEBSOCKET_IN" "REGISTRY_CREATE_WEBSOCKET_IN" = true ∧
    summaryPhrase (Json.obj
        [("eventCategory", Json.str "REGISTRY_CREATE_WEBSOCKET_IN"),
         ("eventType", Json.str "INCOMING_CALL"),
         ("eventDetails", Json.obj [("phoneNumber", Json.str "+1-555-1234")])]) =
      .ok "Machine created and registered" ∧
    ("Machine created and registered" : String) ≠
      "← Received INCOMING_CALL from +1-555-1234" :=
  ⟨rfl, rfl, by decide⟩

/-- The `--stats` accumulation loop (view-events.py, lines 105-114): per
file, collect the name, count the recovered records, and add the byte
size.  A file is modelled as (name, physical lines, byte size). -/
def statsScan (files : List (String × List String × Nat)) : Nat × Nat × List String :=
  files.foldl
    (fun acc f =>
      (acc.1 + (read_events_file f.2.1).length, acc.2.1 + f.2.2, acc.2.2 ++ [f.1]))
    (0, 0, [])

/-- Model of Python `sorted` on strings (stable, lexicographic by code
point). -/
def sortedNames (names : List String) : List String :=
  names.insertionSort (· ≤ ·)

/-- Python `f"{size / 1024:.1f}"`: the size in kibibytes rendered with
one decimal, round-half-even (exact for sizes below 2^53, where the
float division by 1024 is exact). -/
def formatKB (size : Nat) : String :=
  let n := size * 10
  let q := n / 1024
  let r := n % 1024
  let rounded :=
    if 512 < r then q + 1 else if r < 512 then q else if q % 2 = 0 then q else q + 1
  toString (rounded / 10) ++ "." ++ toString (rounded % 10)

/-- The printed `--stats` report (view-events.py, lines 116-125). -/
def statsReport (files : List (String × List String × Nat)) : List String :=
  let scan := statsScan files
  ["\n📊 EventStore Statistics",
   String.mk (List.replicate 40 '='),
   "📁 Location: ./event-store/",
   "📅 Files: " ++ toString scan.2.2.length]
  ++ (sortedNames scan.2.2).map (fun f => "   - " ++ f)
  ++ ["📈 Total Events: " ++ toString scan.1,
      "💾 Total Size: " ++ formatKB scan.2.1 ++ " KB",
      "🔄 Retention: 7 days",
      "✅ Status: Active"]

theorem statsScan_general (files : List (String × List String × Nat)) :
    ∀ (a b : Nat) (c : List String),
      files.foldl
          (fun acc f =>
            (acc.1 + (read_events_file f.2.1).length, acc.2.1 + f.2.2,
              acc.2.2 ++ [f.1]))
          (a, b, c) =
        (a + (files.map (fun f => (read_events_file f.2.1).length)).sum,
         b + (files.map (fun f => f.2.2)).sum,
         c ++ files.map Prod.fst) := by
  induction files with
  | nil => intro a b c; simp
  | cons f fs ih =>
    intro a b c
    simp only [List.foldl_cons, List.map_cons, List.sum_cons]
    rw [ih]
    simp [Nat.add_assoc]

/-- C8: the stats pass reports one entry per discovered file, the file
names sorted lexicographically (a sorted permutation of the names), a
total record count equal to the sum of the per-file recovered counts, a
total size equal to the sum of the file byte sizes, and that sum is the
size displayed in kibibytes with one decimal place. -/
theorem statsReport_spec (files : List (String × List String × Nat)) :
    statsScan files =
      ((files.map (fun f => (read_events_file f.2.1).length)).sum,
       (files.map (fun f => f.2.2)).sum,
       files.map Prod.fst) ∧
    (files.map Prod.fst).length = files.length ∧
    (sortedNames (files.map Prod.fst)).Perm (files.map Prod.fst) ∧
    (sortedNames (files.map Prod.fst)).Sorted (· ≤ ·) ∧
    ("📅 Files: " ++ toString files.length) ∈ statsReport files ∧
    ("📈 Total Events: " ++
        toString ((files.map (fun f => (read_events_file f.2.1).length)).sum)) ∈
      statsReport files ∧
    ("💾 Total Size: " ++ formatKB ((files.map (fun f => f.2.2)).sum) ++ " KB") ∈
      statsReport files := by
  have hscan : statsScan files =
      ((files.map (fun f => (read_events_file f.2.1).length)).sum,
       (files.map (fun f => f.2.2)).sum,
       files.map Prod.fst) := by
    simpa [statsScan] using statsScan_general files 0 0 []
  refine ⟨hscan, List.length_map _ _, List.perm_insertionSort _ _,
    List.sorted_insertionSort _ _, ?_, ?_, ?_⟩
  all_goals simp [statsReport, hscan, List.length_map]

/-- An abstract file system: full path to physical lines. -/
def FileSys : Type := List (String × List String)

/-- `Path.exists` plus `open`: the file at a path, when present. -/
def lookupFile : FileSys → String → Option (List String)
  | [], _ => none
  | (p, ls) :: rest, q => if p = q then some ls else lookupFile rest q

/-- `Path("event-store").glob("events-*.jsonl")` reported by name
(view-events.py, lines 136-137). -/
def globEventNames (fs : FileSys) : List String :=
  (fs.map Prod.fst).filterMap (fun p =>
    if p.data.take 19 = "event-store/events-".data ∧
        p.data.drop (p.data.length - 6) = ".jsonl".data then
      some (String.mk (p.data.drop 12))
    else none)

/-- The outcome of one `main` run of the viewer. -/
inductive ViewResult where
  | missing : String → List String → ViewResult
  | displayed : String → List Json → ViewResult

/-- `main` of view-events.py (lines 130-174) after date resolution, for
a date query: the missing-file check, then recovery, then the optional
`--filter` and `--last` stages; an `Except.error` models an uncaught
Python exception escaping `main`. -/
def viewMain (fs : FileSys) (today : String) (filterArg : Option String)
    (lastArg : Option String) : Except String ViewResult :=
  match lookupFile fs (viewLogPath today) with
  | none => .ok (ViewResult.missing today (globEventNames fs))
  | some fileLines => do
    let events0 := read_events_file fileLines
    let events1 ←
      match filterArg with
      | some v => filterEvents v events0
      | none => pure events0
    let events2 ←
      match lastArg with
      | some a => handleLastArg a events1
      | none => pure events1
    pure (ViewResult.displayed today events2)

/-- C9: when the resolved date's file does not exist, the viewer returns
the not-found report listing the log files that do exist, terminates
cleanly (no exception, hence exit status 0), and displays no events. -/
theorem viewMain_missing (fs : FileSys) (today : String)
    (fArg lArg : Option String)
    (h : lookupFile fs (viewLogPath today) = none) :
    viewMain fs today fArg lArg = .ok (ViewResult.missing today (globEventNames fs)) := by
  simp [viewMain, h]

theorem viewMain_missing_witness :
    viewMain [("event-store/events-2025-08-18.jsonl", [])] "2025-08-19" none none =
      .ok (ViewResult.missing "2025-08-19" ["events-2025-08-18.jsonl"]) :=
  viewMain_missing _ _ _ _ rfl
